import Mathlib

/-!
# Verification of the google-meet-cindi session-orchestration core

Shallow embedding of the backend's meeting-id / expiry utilities
(`src/backend/src/utils/expiry.ts`), the room registry
(`src/mediasoup/room.ts`) and the Socket.IO signaling handlers
(`src/backend/src/server.ts`), together with theorems settling the
specification's claims about them.

JavaScript-level conventions used throughout the embedding:
* strings are modelled as Lean `String`s, worked on through `String.data`;
* `parseInt` (radix argument omitted) is modelled by `jsParseInt`, including
  whitespace trimming, an optional sign, the `0x`/`0X` hexadecimal prefix and
  the maximal-digit-prefix rule (`NaN` becomes `none`);
* `String.prototype.split('-')` is modelled by `splitDash`;
* a JS `Map` is modelled as an association list in insertion order
  (`Map.get`/`Map.set`/`Map.delete`/`Map.has` become
  `mapGet`/`mapSet`/`mapDelete`/`mapHas`); `forEach` iterates in insertion
  order, which the list preserves;
* a thrown exception is modelled with `Except.error`; `NaN` flowing through
  arithmetic is modelled with `Option.none`.
-/

namespace Cindi

/-! ## JavaScript primitives -/

/-- Characters trimmed by `parseInt` before parsing (JS WhiteSpace and
LineTerminator code points, restricted to the ASCII ones that matter here). -/
def jsWhitespace (c : Char) : Bool :=
  c = ' ' ∨ c = '\t' ∨ c = '\n' ∨ c = '\r' ∨ c = '\x0b' ∨ c = '\x0c'

/-- Numeric value of a digit character, covering the decimal digits and both
cases of the hexadecimal letters. -/
def radixDigitVal (c : Char) : Option Nat :=
  if '0' ≤ c ∧ c ≤ '9' then some (c.toNat - 48)
  else if 'a' ≤ c ∧ c ≤ 'f' then some (c.toNat - 87)
  else if 'A' ≤ c ∧ c ≤ 'F' then some (c.toNat - 55)
  else none

/-- Is `c` a digit of the given radix (10 or 16)? -/
def isRadixDigit (radix : Nat) (c : Char) : Bool :=
  match radixDigitVal c with
  | some v => decide (v < radix)
  | none => false

/-- Accumulate the value of a digit string, most significant digit first. -/
def digitsToNat (radix : Nat) (cs : List Char) : Nat :=
  cs.foldl (fun a c => a * radix + ((radixDigitVal c).getD 0)) 0

/-- The sign step of `parseInt`: consume one optional `-` or `+`. -/
def jsStripSign : List Char → Int × List Char
  | '-' :: r => (-1, r)
  | '+' :: r => (1, r)
  | cs => (1, cs)

/-- The radix-detection step of `parseInt` with radix omitted: a leading
`0x`/`0X` selects radix 16, anything else radix 10. -/
def jsStripHexPrefix : List Char → Nat × List Char
  | '0' :: 'x' :: r => (16, r)
  | '0' :: 'X' :: r => (16, r)
  | cs => (10, cs)

/-- JS `parseInt(s)` with the radix argument omitted: trim leading whitespace,
read an optional sign, detect a `0x`/`0X` prefix (radix 16, else 10), then
parse the maximal prefix of radix digits; an empty digit prefix is `NaN`,
modelled as `none`. -/
def jsParseInt (cs0 : List Char) : Option Int :=
  let signed := jsStripSign (cs0.dropWhile jsWhitespace)
  let based := jsStripHexPrefix signed.2
  let digits := based.2.takeWhile (isRadixDigit based.1)
  if digits = [] then none
  else some (signed.1 * (digitsToNat based.1 digits : Int))

/-- JS `s.split('-')` on the character list of `s`: splits at every dash and
keeps empty segments, so the result is always nonempty. -/
def splitDash : List Char → List (List Char)
  | [] => [[]]
  | c :: cs =>
    if c = '-' then [] :: splitDash cs
    else
      match splitDash cs with
      | [] => [[c]]
      | seg :: rest => (c :: seg) :: rest

/-- `parts[parts.length - 1]` after `meetingId.split('-')`. -/
def lastSegment (s : String) : List Char :=
  (splitDash s.data).getLastD []

/-- The decimal digit character for `d < 10`. -/
def digitChar : Nat → Char
  | 0 => '0' | 1 => '1' | 2 => '2' | 3 => '3' | 4 => '4'
  | 5 => '5' | 6 => '6' | 7 => '7' | 8 => '8' | _ => '9'

/-- Decimal representation of a natural number (model of JS number-to-string
conversion in a template literal), accumulator form. -/
def natDigitsCore (n : Nat) (acc : List Char) : List Char :=
  if h : n < 10 then digitChar n :: acc
  else natDigitsCore (n / 10) (digitChar (n % 10) :: acc)
  termination_by n
  decreasing_by exact Nat.div_lt_self (by omega) (by omega)

/-- Decimal representation of a natural number, most significant digit first. -/
def natDigits (n : Nat) : List Char :=
  natDigitsCore n []

/-- The lowercase hexadecimal digit character for `d < 16`. -/
def hexChar : Nat → Char
  | 0 => '0' | 1 => '1' | 2 => '2' | 3 => '3' | 4 => '4'
  | 5 => '5' | 6 => '6' | 7 => '7' | 8 => '8' | 9 => '9'
  | 10 => 'a' | 11 => 'b' | 12 => 'c' | 13 => 'd' | 14 => 'e' | _ => 'f'

/-- One byte rendered as two lowercase hex characters
(model of `Buffer.toString('hex')` per byte). -/
def byteToHex (b : Nat) : List Char :=
  [hexChar (b / 16 % 16), hexChar (b % 16)]

/-- `crypto.randomBytes(n).toString('hex')`: each byte becomes two lowercase
hex characters, in order. -/
def bytesToHex (bs : List Nat) : List Char :=
  bs.flatMap byteToHex

/-! ## `src/backend/src/utils/expiry.ts` -/

/-- `generateMeetingId()`. The 8 random bytes drawn from `crypto.randomBytes`
are passed explicitly as `entropy`, the `Date.now()` reading as `now`:
`` `${randomHash}-${timestamp}` ``. -/
def generateMeetingId (entropy : List Nat) (now : Nat) : String :=
  ⟨bytesToHex entropy ++ '-' :: natDigits now⟩

/-- `isMeetingExpired(meetingId)` at clock reading `now`: parse the trailing
dash-separated segment with `parseInt`; `NaN` means expired; otherwise expired
iff the age exceeds 24 hours in milliseconds.  The `catch` branch of the
source (also returning `true`) is unreachable for string inputs because
neither `split` nor `parseInt` throws. -/
def isMeetingExpired (meetingId : String) (now : Int) : Bool :=
  match jsParseInt (lastSegment meetingId) with
  | none => true
  | some timestamp => decide (now - timestamp > 24 * 60 * 60 * 1000)

/-- `getMeetingAge(meetingId)` at clock reading `now`, in hours.  When
`parseInt` yields `NaN`, the subtraction and division propagate `NaN`
(modelled `none`); no exception is thrown for string inputs, so the `catch`
branch returning the sentinel `999` is unreachable in this model. -/
def getMeetingAge (meetingId : String) (now : Int) : Option ℚ :=
  match jsParseInt (lastSegment meetingId) with
  | none => none
  | some timestamp => some (((now - timestamp : Int) : ℚ) / (60 * 60 * 1000))

/-- A lowercase hexadecimal digit, `[0-9a-f]`. -/
def isLowerHexDigit (c : Char) : Bool :=
  ('0' ≤ c ∧ c ≤ '9') ∨ ('a' ≤ c ∧ c ≤ 'f')

/-- Executable check for the spec's id shape `^[0-9a-f]\x7b16\x7d-\d+$`:
sixteen lowercase hex characters, a dash, then a nonempty run of decimal
digits. -/
def matchesIdForm (s : String) : Bool :=
  let cs := s.data
  let hex := cs.take 16
  decide (hex.length = 16) && hex.all isLowerHexDigit &&
    (match cs.drop 16 with
     | '-' :: ds => decide (ds ≠ []) && ds.all (isRadixDigit 10)
     | _ => false)

/-- The spec's notion of a segment being "a valid integer": a nonempty digit
run, optionally signed.  (Used only to state claims about malformed ids.) -/
def isValidIntegerString (cs : List Char) : Bool :=
  let body :=
    match cs with
    | '-' :: r => r
    | '+' :: r => r
    | _ => cs
  decide (body ≠ []) && body.all (isRadixDigit 10)

/-! ## JS `Map` as an insertion-ordered association list -/

/-- `Map.get(k)`. -/
def mapGet {α : Type} : List (String × α) → String → Option α
  | [], _ => none
  | (k', v') :: rest, k => if k' = k then some v' else mapGet rest k

/-- `Map.has(k)`. -/
def mapHas {α : Type} (m : List (String × α)) (k : String) : Bool :=
  (mapGet m k).isSome

/-- `Map.set(k, v)`: replace in place when the key is present, else append. -/
def mapSet {α : Type} : List (String × α) → String → α → List (String × α)
  | [], k, v => [(k, v)]
  | (k', v') :: rest, k, v =>
    if k' = k then (k, v) :: rest else (k', v') :: mapSet rest k v

/-- `Map.delete(k)`. -/
def mapDelete {α : Type} (m : List (String × α)) (k : String) : List (String × α) :=
  m.filter (fun p => p.1 ≠ k)

/-! ## `src/mediasoup/room.ts` -/

/-- A mediasoup producer handle, as far as the registry reads it:
its id and its media kind. -/
structure Producer where
  id : String
  kind : String
  deriving DecidableEq

/-- A peer: connection id, user identity, and its owned media resources.
Transport and consumer handles are opaque here (modelled by strings). -/
structure Peer where
  id : String
  userId : String
  username : String
  transports : List (String × String)
  producers : List (String × Producer)
  consumers : List (String × String)
  deriving DecidableEq

/-- A room: id, the router handle created for it by the media engine
(modelled by the creation counter value), its peers, creation time. -/
structure Room where
  id : String
  router : Nat
  peers : List (String × Peer)
  createdAt : Int
  deriving DecidableEq

/-- The module-level `rooms` map, together with the media engine's router
creation counter (`nextRouter` counts how many routers the facade has
created; each `worker.createRouter` call returns a fresh handle). -/
structure Registry where
  rooms : List (String × Room)
  nextRouter : Nat
  deriving DecidableEq

/-- `createRoom(roomId)`: return the existing room if present, else create a
router via the facade and insert a fresh room. -/
def createRoom (reg : Registry) (roomId : String) (now : Int) : Room × Registry :=
  match mapGet reg.rooms roomId with
  | some room => (room, reg)
  | none =>
    let room : Room := { id := roomId, router := reg.nextRouter, peers := [], createdAt := now }
    (room, { rooms := mapSet reg.rooms roomId room, nextRouter := reg.nextRouter + 1 })

/-- `addPeer(roomId, peerId, userId, username)`: throws when the room is
missing; otherwise stores a fresh peer with empty resource maps (a peer
already stored under `peerId` is silently overwritten by `Map.set`). -/
def addPeer (reg : Registry) (roomId peerId userId username : String) :
    Except String (Peer × Registry) :=
  match mapGet reg.rooms roomId with
  | none => Except.error ("Room " ++ roomId ++ " not found")
  | some room =>
    let peer : Peer :=
      { id := peerId, userId := userId, username := username,
        transports := [], producers := [], consumers := [] }
    Except.ok (peer,
      { reg with rooms := mapSet reg.rooms roomId { room with peers := mapSet room.peers peerId peer } })

/-- `getPeer(roomId, peerId)`. -/
def getPeer (reg : Registry) (roomId peerId : String) : Option Peer :=
  match mapGet reg.rooms roomId with
  | none => none
  | some room => mapGet room.peers peerId

/-- `removePeer(roomId, peerId)`: no-op when room or peer is absent; else
closes the peer's transports (the returned list of handles) and deletes the
peer from the room.  The emptied room is kept (`deleteRoom` is commented
out in the source). -/
def removePeer (reg : Registry) (roomId peerId : String) : Registry × List String :=
  match mapGet reg.rooms roomId with
  | none => (reg, [])
  | some room =>
    match mapGet room.peers peerId with
    | none => (reg, [])
    | some peer =>
      ({ reg with rooms := mapSet reg.rooms roomId { room with peers := mapDelete room.peers peerId } },
       peer.transports.map (fun t => t.2))

/-- One element of the `getOtherPeersProducers` snapshot. -/
structure ProducerInfo where
  producerId : String
  peerId : String
  userId : String
  username : String
  kind : String
  deriving DecidableEq

/-- `getOtherPeersProducers(roomId, excludePeerId)`: every producer of every
peer other than the excluded one, in room-map iteration order; `[]` for an
unknown room. -/
def getOtherPeersProducers (reg : Registry) (roomId excludePeerId : String) :
    List ProducerInfo :=
  match mapGet reg.rooms roomId with
  | none => []
  | some room =>
    (room.peers.filter (fun p => p.1 ≠ excludePeerId)).flatMap
      (fun p => p.2.producers.map (fun q =>
        { producerId := q.2.id, peerId := p.1, userId := p.2.userId,
          username := p.2.username, kind := q.2.kind }))

/-- One element of the `getRoomPeers` roster snapshot. -/
structure RosterEntry where
  peerId : String
  userId : String
  username : String
  deriving DecidableEq

/-- `getRoomPeers(roomId)`: the roster snapshot; `[]` for an unknown room. -/
def getRoomPeers (reg : Registry) (roomId : String) : List RosterEntry :=
  match mapGet reg.rooms roomId with
  | none => []
  | some room =>
    room.peers.map (fun p =>
      { peerId := p.2.id, userId := p.2.userId, username := p.2.username })

/-- `connectTransport(roomId, peerId, transportId, dtlsParameters)`: look up
the peer and the transport, then hand over to the engine's
`transport.connect`, whose outcome is passed in as `engine`. -/
def connectTransport (reg : Registry) (roomId peerId transportId : String)
    (engine : Except String Unit) : Except String Unit :=
  match getPeer reg roomId peerId with
  | none => Except.error ("Peer " ++ peerId ++ " not found")
  | some peer =>
    match mapGet peer.transports transportId with
    | none => Except.error ("Transport " ++ transportId ++ " not found")
    | some _ => engine

/-- `produce(roomId, peerId, transportId, kind, rtpParameters)`: look up the
peer and the transport; `transport.produce` is the engine call whose outcome
(`Except` of the fresh producer id) is passed in as `engine`; on success the
producer is stored under the peer and its id returned. -/
def produce (reg : Registry) (roomId peerId transportId kind : String)
    (engine : Except String String) : Except String (String × Registry) :=
  match mapGet reg.rooms roomId with
  | none => Except.error ("Peer " ++ peerId ++ " not found")
  | some room =>
    match mapGet room.peers peerId with
    | none => Except.error ("Peer " ++ peerId ++ " not found")
    | some peer =>
      match mapGet peer.transports transportId with
      | none => Except.error ("Transport " ++ transportId ++ " not found")
      | some _ =>
        match engine with
        | Except.error e => Except.error e
        | Except.ok producerId =>
          let peer1 : Peer :=
            { peer with producers := mapSet peer.producers producerId ⟨producerId, kind⟩ }
          Except.ok (producerId,
            { reg with rooms := mapSet reg.rooms roomId { room with peers := mapSet room.peers peerId peer1 } })

/-! ## `src/backend/src/server.ts`: the Socket.IO signaling layer -/

/-- Events the server emits to other members of a room's broadcast group. -/
inductive SocketEvent where
  | newPeer (peerId userId username : String)
  | newProducer (peerId producerId kind : String)
  | peerLeft (peerId : String)
  deriving DecidableEq

/-- One event delivered to one recipient socket. -/
structure Delivery where
  recipient : String
  event : SocketEvent
  deriving DecidableEq

/-- The per-connection `socket` object: its id and its `socket.data` fields. -/
structure SocketCtx where
  id : String
  roomId : Option String := none
  userId : Option String := none
  username : Option String := none
  deriving DecidableEq

/-- Process-wide server state: the room registry plus the Socket.IO broadcast
groups (room name to member socket ids, in join order). -/
structure ServerState where
  registry : Registry
  groups : List (String × List String)
  deriving DecidableEq

/-- Members of a broadcast group. -/
def groupMembers (groups : List (String × List String)) (roomId : String) : List String :=
  (mapGet groups roomId).getD []

/-- `socket.join(roomId)`. -/
def groupJoin (groups : List (String × List String)) (roomId sid : String) :
    List (String × List String) :=
  let members := groupMembers groups roomId
  if sid ∈ members then groups else mapSet groups roomId (members ++ [sid])

/-- `socket.leave(roomId)`. -/
def groupLeave (groups : List (String × List String)) (roomId sid : String) :
    List (String × List String) :=
  mapSet groups roomId ((groupMembers groups roomId).filter (fun m => m ≠ sid))

/-- `socket.to(roomId).emit(...)`: deliver to every group member except the
sender (the sender is excluded whether or not it is still a member). -/
def emitTo (groups : List (String × List String)) (roomId senderId : String)
    (ev : SocketEvent) : List Delivery :=
  ((groupMembers groups roomId).filter (fun m => m ≠ senderId)).map (fun m => ⟨m, ev⟩)

/-- JS truthiness of an optional string field of the request payload:
`undefined` and the empty string are falsy. -/
def jsTruthy (o : Option String) : Bool :=
  match o with
  | none => false
  | some s => decide (s ≠ "")

/-- The `joinRoom` request payload. -/
structure JoinData where
  roomId : Option String := none
  userId : Option String := none
  username : Option String := none

/-- The `joinRoom` handler: validate fields, reject expired meeting ids,
get-or-create the room, add the peer, join the broadcast group, record the
room on `socket.data`, reply with the roster excluding self and broadcast
`newPeer` to the others.  Returns (reply, new server state, new socket,
deliveries); an error reply leaves every mutation made before the throw in
place, as the `try`/`catch` in the source does. -/
def joinRoomHandler (st : ServerState) (sock : SocketCtx) (data : JoinData)
    (now : Int) :
    Except String (List RosterEntry) × ServerState × SocketCtx × List Delivery :=
  if ¬ (jsTruthy data.roomId ∧ jsTruthy data.userId ∧ jsTruthy data.username) then
    (Except.error "Missing required fields", st, sock, [])
  else
    let roomId := data.roomId.getD ""
    let userId := data.userId.getD ""
    let username := data.username.getD ""
    if isMeetingExpired roomId now then
      (Except.error "Meeting link has expired (24h limit)", st, sock, [])
    else
      let reg1 :=
        match mapGet st.registry.rooms roomId with
        | some _ => st.registry
        | none => (createRoom st.registry roomId now).2
      match addPeer reg1 roomId sock.id userId username with
      | Except.error _ =>
        (Except.error "Failed to join room", { st with registry := reg1 }, sock, [])
      | Except.ok pr =>
        let reg2 := pr.2
        let groups1 := groupJoin st.groups roomId sock.id
        let sock1 :=
          { sock with roomId := some roomId, userId := some userId, username := some username }
        let peers := (getRoomPeers reg2 roomId).filter (fun p => p.peerId ≠ sock.id)
        let ds := emitTo groups1 roomId sock.id (SocketEvent.newPeer sock.id userId username)
        (Except.ok peers, { registry := reg2, groups := groups1 }, sock1, ds)

/-- The `connectTransport` handler: any failure of the operation (missing
peer, missing transport, or engine failure) is caught and replaced by the
fixed reply `Failed to connect transport`; success replies `success: true`. -/
def connectTransportHandler (st : ServerState) (sock : SocketCtx)
    (roomId transportId : String) (engine : Except String Unit) :
    Except String Unit :=
  match connectTransport st.registry roomId sock.id transportId engine with
  | Except.ok _ => Except.ok ()
  | Except.error _ => Except.error "Failed to connect transport"

/-- The `produce` handler: on success, store the producer, broadcast
`newProducer` to the other group members and reply with the producer id; any
failure is caught and replaced by the fixed reply `Failed to produce`, with
no broadcast and no state change. -/
def produceHandler (st : ServerState) (sock : SocketCtx)
    (roomId transportId kind : String) (engine : Except String String) :
    Except String String × ServerState × List Delivery :=
  match produce st.registry roomId sock.id transportId kind engine with
  | Except.error _ => (Except.error "Failed to produce", st, [])
  | Except.ok pr =>
    (Except.ok pr.1, { st with registry := pr.2 },
     emitTo st.groups roomId sock.id (SocketEvent.newProducer sock.id pr.1 kind))

/-- `handleDisconnect`, invoked identically by the `leaveRoom` event and the
`disconnect` event: when `socket.data.roomId` is set, remove the peer from
the registry, broadcast `peerLeft` to the rest of the group and leave the
group.  Note the source never clears `socket.data.roomId`, so the returned
socket still carries it. -/
def handleDisconnect (st : ServerState) (sock : SocketCtx) :
    ServerState × SocketCtx × List Delivery :=
  match sock.roomId with
  | none => (st, sock, [])
  | some roomId =>
    let reg1 := (removePeer st.registry roomId sock.id).1
    let ds := emitTo st.groups roomId sock.id (SocketEvent.peerLeft sock.id)
    let groups1 := groupLeave st.groups roomId sock.id
    ({ registry := reg1, groups := groups1 }, sock, ds)

/-! ## Helper lemmas: association lists -/

theorem mapGet_mapSet_self {α : Type} (m : List (String × α)) (k : String) (v : α) :
    mapGet (mapSet m k v) k = some v := by
  induction m with
  | nil => simp [mapSet, mapGet]
  | cons p rest ih =>
    obtain ⟨k', v'⟩ := p
    by_cases h : k' = k
    · simp [mapSet, mapGet, h]
    · simp [mapSet, mapGet, h, ih]

theorem mapSet_not_has {α : Type} {m : List (String × α)} {k : String}
    (h : mapHas m k = false) (v : α) : mapSet m k v = m ++ [(k, v)] := by
  induction m with
  | nil => rfl
  | cons p rest ih =>
    obtain ⟨k', v'⟩ := p
    by_cases hk : k' = k
    · simp [mapHas, mapGet, hk] at h
    · simp only [mapHas, mapGet, if_neg hk] at h
      simp [mapSet, hk, ih h]

theorem length_mapSet_has {α : Type} {m : List (String × α)} {k : String}
    (h : mapHas m k = true) (v : α) : (mapSet m k v).length = m.length := by
  induction m with
  | nil => simp [mapHas, mapGet] at h
  | cons p rest ih =>
    obtain ⟨k', v'⟩ := p
    by_cases hk : k' = k
    · simp [mapSet, hk]
    · simp only [mapHas, mapGet, if_neg hk] at h
      simp [mapSet, hk, ih h]

/-! ## Helper lemmas: `splitDash` and `lastSegment` -/

theorem splitDash_ne_nil : ∀ cs : List Char, splitDash cs ≠ []
  | [] => by simp [splitDash]
  | c :: cs => by
    simp only [splitDash]
    split
    · simp
    · split <;> simp

theorem splitDash_no_dash (cs : List Char) (h : ∀ c ∈ cs, c ≠ '-') :
    splitDash cs = [cs] := by
  induction cs with
  | nil => rfl
  | cons c rest ih =>
    have hc : c ≠ '-' := h c (by simp)
    have hr := ih (fun x hx => h x (by simp [hx]))
    simp [splitDash, hc, hr]

theorem splitDash_append (a b : List Char) (h : ∀ c ∈ a, c ≠ '-') :
    splitDash (a ++ '-' :: b) = a :: splitDash b := by
  induction a with
  | nil => simp [splitDash]
  | cons c a' ih =>
    have hc : c ≠ '-' := h c (by simp)
    have ih' := ih (fun x hx => h x (by simp [hx]))
    simp [splitDash, hc, ih']

theorem lastSegment_mk (a b : List Char) (ha : ∀ c ∈ a, c ≠ '-')
    (hb : ∀ c ∈ b, c ≠ '-') : lastSegment ⟨a ++ '-' :: b⟩ = b := by
  show (splitDash (a ++ '-' :: b)).getLastD [] = b
  rw [splitDash_append a b ha, splitDash_no_dash b hb]
  simp

/-! ## Helper lemmas: digit characters -/

/-- The ten decimal digit characters. -/
def decDigits : List Char := ['0', '1', '2', '3', '4', '5', '6', '7', '8', '9']

theorem digitChar_mem (d : Nat) : digitChar d ∈ decDigits := by
  unfold digitChar
  split <;> decide

theorem decDigit_facts {c : Char} (h : c ∈ decDigits) :
    isRadixDigit 10 c = true ∧ jsWhitespace c = false ∧
      c ≠ '-' ∧ c ≠ '+' ∧ c ≠ 'x' ∧ c ≠ 'X' := by
  fin_cases h <;> exact ⟨by decide, by decide, by decide, by decide, by decide, by decide⟩

theorem digitChar_val {d : Nat} (h : d < 10) : radixDigitVal (digitChar d) = some d := by
  interval_cases d <;> decide

/-! ## Helper lemmas: `natDigits` -/

theorem natDigitsCore_append (n : Nat) :
    ∀ acc, natDigitsCore n acc = natDigits n ++ acc := by
  induction n using Nat.strong_induction_on with
  | _ n ih =>
    intro acc
    by_cases h : n < 10
    · unfold natDigits natDigitsCore
      simp [h]
    · have hlt : n / 10 < n := Nat.div_lt_self (by omega) (by omega)
      conv_lhs => rw [natDigitsCore]
      conv_rhs => rw [natDigits, natDigitsCore]
      simp only [dif_neg h]
      rw [ih _ hlt, ih _ hlt, List.append_assoc]
      rfl

theorem natDigits_eq (n : Nat) :
    natDigits n =
      if n < 10 then [digitChar n] else natDigits (n / 10) ++ [digitChar (n % 10)] := by
  by_cases h : n < 10
  · unfold natDigits natDigitsCore
    simp [h]
  · conv_lhs => rw [natDigits, natDigitsCore]
    simp [h, natDigitsCore_append]

theorem natDigits_ne_nil (n : Nat) : natDigits n ≠ [] := by
  rw [natDigits_eq]
  split <;> simp

theorem natDigits_mem_decDigits (n : Nat) : ∀ c ∈ natDigits n, c ∈ decDigits := by
  induction n using Nat.strong_induction_on with
  | _ n ih =>
    intro c hc
    rw [natDigits_eq] at hc
    by_cases h : n < 10
    · rw [if_pos h] at hc
      simp at hc
      exact hc ▸ digitChar_mem n
    · rw [if_neg h] at hc
      rcases List.mem_append.1 hc with h1 | h2
      · exact ih (n / 10) (Nat.div_lt_self (by omega) (by omega)) c h1
      · simp at h2
        exact h2 ▸ digitChar_mem (n % 10)

theorem foldl_natDigits (n : Nat) : ∀ a : Nat,
    (natDigits n).foldl (fun a c => a * 10 + ((radixDigitVal c).getD 0)) a
      = a * 10 ^ (natDigits n).length + n := by
  induction n using Nat.strong_induction_on with
  | _ n ih =>
    intro a
    rw [natDigits_eq]
    by_cases h : n < 10
    · simp [h, digitChar_val h]
    · have hlt : n / 10 < n := Nat.div_lt_self (by omega) (by omega)
      rw [if_neg h, List.foldl_append, ih _ hlt]
      simp only [List.foldl_cons, List.foldl_nil, List.length_append, List.length_cons,
        List.length_nil, digitChar_val (Nat.mod_lt n (by omega)), Option.getD_some]
      rw [pow_succ, ← mul_assoc]
      omega

theorem digitsToNat_natDigits (n : Nat) : digitsToNat 10 (natDigits n) = n := by
  have h := foldl_natDigits n 0
  simpa [digitsToNat] using h

/-! ## Helper lemmas: `jsParseInt` -/

theorem jsStripSign_cons (c : Char) (rest : List Char) (h1 : c ≠ '-') (h2 : c ≠ '+') :
    jsStripSign (c :: rest) = (1, c :: rest) := by
  unfold jsStripSign
  split
  · next heq => injection heq with ha _; exact absurd ha h1
  · next heq => injection heq with ha _; exact absurd ha h2
  · rfl

theorem jsStripHexPrefix_decDigits (cs : List Char) (h : ∀ c ∈ cs, c ∈ decDigits) :
    jsStripHexPrefix cs = (10, cs) := by
  unfold jsStripHexPrefix
  split
  · exact absurd (h 'x' (by simp)) (by decide)
  · exact absurd (h 'X' (by simp)) (by decide)
  · rfl

theorem jsParseInt_decDigits (cs : List Char) (hne : cs ≠ [])
    (h : ∀ c ∈ cs, c ∈ decDigits) :
    jsParseInt cs = some ((digitsToNat 10 cs : Nat) : Int) := by
  obtain ⟨c, rest, rfl⟩ := List.exists_cons_of_ne_nil hne
  have hc := decDigit_facts (h c (by simp))
  have hdrop : (c :: rest).dropWhile jsWhitespace = c :: rest :=
    List.dropWhile_cons_of_neg (by simp [hc.2.1])
  have hdig : ∀ x ∈ c :: rest, isRadixDigit 10 x = true :=
    fun x hx => (decDigit_facts (h x hx)).1
  have htake : (c :: rest).takeWhile (isRadixDigit 10) = c :: rest :=
    List.takeWhile_eq_self_iff.2 (by simpa using hdig)
  simp only [jsParseInt, hdrop, jsStripSign_cons c rest hc.2.2.1 hc.2.2.2.1,
    jsStripHexPrefix_decDigits (c :: rest) h, htake]
  simp

theorem jsParseInt_natDigits (n : Nat) : jsParseInt (natDigits n) = some (n : Int) := by
  rw [jsParseInt_decDigits _ (natDigits_ne_nil n) (natDigits_mem_decDigits n),
    digitsToNat_natDigits]

/-! ## Helper lemmas: hexadecimal rendering -/

theorem hexChar_lowerHex (d : Nat) : isLowerHexDigit (hexChar d) = true := by
  unfold hexChar
  split <;> decide

theorem bytesToHex_lowerHex (bs : List Nat) :
    ∀ c ∈ bytesToHex bs, isLowerHexDigit c = true := by
  intro c hc
  simp only [bytesToHex, List.mem_flatMap] at hc
  obtain ⟨b, _, hb⟩ := hc
  simp only [byteToHex, List.mem_cons, List.mem_singleton] at hb
  rcases hb with rfl | rfl | hfalse
  · exact hexChar_lowerHex _
  · exact hexChar_lowerHex _
  · simp at hfalse

theorem bytesToHex_length (bs : List Nat) : (bytesToHex bs).length = 2 * bs.length := by
  induction bs with
  | nil => rfl
  | cons b rest ih =>
    simp [bytesToHex, byteToHex] at ih ⊢
    omega

theorem ne_dash_of_lowerHex {c : Char} (h : isLowerHexDigit c = true) : c ≠ '-' := by
  intro heq
  subst heq
  exact absurd h (by decide)

theorem matchesIdForm_mk (a b : List Char) (ha16 : a.length = 16)
    (hahex : ∀ c ∈ a, isLowerHexDigit c = true) (hbne : b ≠ [])
    (hbd : ∀ c ∈ b, isRadixDigit 10 c = true) :
    matchesIdForm ⟨a ++ '-' :: b⟩ = true := by
  unfold matchesIdForm
  dsimp only
  rw [← ha16, List.take_left, List.drop_left]
  simp only [List.all_eq_true, hbne, ha16]
  simp [hbne]
  exact ⟨hahex, hbd⟩

/-! ## Concrete sample states used by witnesses and counterexamples -/

def samplePeerA : Peer := ⟨"A", "u1", "Alice", [], [], []⟩

def samplePeerB : Peer := ⟨"B", "u2", "Bob", [], [], []⟩

def sampleProducer : Producer := ⟨"pv", "video"⟩

def samplePeerP : Peer := ⟨"p", "u1", "Alice", [], [("pv", sampleProducer)], []⟩

def samplePeerQ : Peer := ⟨"q", "u2", "Bob", [], [], []⟩

def samplePeerT : Peer := ⟨"p", "u1", "Alice", [("t", "th")], [], []⟩

def sampleRoomAB : Room := ⟨"r", 0, [("A", samplePeerA), ("B", samplePeerB)], 0⟩

def sampleRoomPQ : Room := ⟨"r", 0, [("p", samplePeerP), ("q", samplePeerQ)], 0⟩

def sampleRoomT : Room := ⟨"r", 0, [("p", samplePeerT)], 0⟩

def regAB : Registry := ⟨[("r", sampleRoomAB)], 1⟩

def regPQ : Registry := ⟨[("r", sampleRoomPQ)], 1⟩

def regT : Registry := ⟨[("r", sampleRoomT)], 1⟩

def regEmpty : Registry := ⟨[], 0⟩

def stAB : ServerState := ⟨regAB, [("r", ["A", "B"])]⟩

def stT : ServerState := ⟨regT, [("r", ["p"])]⟩

def sockA : SocketCtx := ⟨"A", some "r", some "u1", some "Alice"⟩

def sockP : SocketCtx := ⟨"p", some "r", some "u1", some "Alice"⟩

/-- The registry after re-adding peer id `p` to a room that already holds a
peer `p` owning one producer. -/
def regPQafter : Registry :=
  match addPeer regPQ "r" "p" "u9" "Zoe" with
  | Except.ok pr => pr.2
  | Except.error _ => regPQ

/-- Entropy bytes used by the C3 witness. -/
def sampleEntropy : List Nat := [0, 1, 255, 16, 32, 171, 10, 9]

/-! ## Claim theorems -/

/-- C1: in a room with peers A and B, running the teardown logic for A twice
(explicit `leaveRoom` followed by the transport-level `disconnect`, both of
which call `handleDisconnect`) broadcasts `peerLeft` to B on BOTH runs,
because `socket.data.roomId` is never cleared; the second run leaves the
registry unchanged and does not error, but the spec's claim of exactly one
`peerLeft` broadcast is violated by the code. -/
theorem C1_second_teardown_rebroadcasts_peerLeft :
    (handleDisconnect stAB sockA).2.2 = [⟨"B", SocketEvent.peerLeft "A"⟩] ∧
    (handleDisconnect (handleDisconnect stAB sockA).1
        (handleDisconnect stAB sockA).2.1).2.2
      = [⟨"B", SocketEvent.peerLeft "A"⟩] ∧
    (handleDisconnect (handleDisconnect stAB sockA).1
        (handleDisconnect stAB sockA).2.1).1.registry
      = (handleDisconnect stAB sockA).1.registry := by
  decide

/-- C7 (counterexample): the trailing segment of `abcd-90000000x` is not a
valid integer, yet at clock 90000000 the id is NOT treated as expired —
`parseInt` accepts the digit prefix `90000000` and the age is 0. -/
theorem C7_trailing_junk_not_expired :
    isValidIntegerString (lastSegment "abcd-90000000x") = false ∧
    isMeetingExpired "abcd-90000000x" 90000000 = false := by
  decide

/-- C7 (amended): `isMeetingExpired` returns true whenever `parseInt` yields
`NaN` on the trailing segment (no parseable digit prefix); a segment with
trailing garbage after a digit prefix is instead treated per that prefix. -/
theorem C7_nan_segment_is_expired (s : String) (now : Int)
    (h : jsParseInt (lastSegment s) = none) : isMeetingExpired s now = true := by
  unfold isMeetingExpired
  rw [h]

/-- C7 witness: a fully non-numeric trailing segment is expired. -/
theorem C7_nan_segment_is_expired_witness :
    isMeetingExpired "not-a-timestamp" 0 = true :=
  C7_nan_segment_is_expired "not-a-timestamp" 0 (by decide)

/-- C8 (counterexample): when the engine's `transport.connect` fails with
message `DTLS fingerprint mismatch`, the handler replies with the fixed
string `Failed to connect transport`, not with the engine's message. -/
theorem C8_reply_not_verbatim :
    connectTransportHandler stT sockP "r" "t"
        (Except.error "DTLS fingerprint mismatch")
      = Except.error "Failed to connect transport" ∧
    ("Failed to connect transport" : String) ≠ "DTLS fingerprint mismatch" :=
  ⟨rfl, by decide⟩

/-- C8 (amended): every failure inside `connectTransport` or `produce`
(missing peer, missing transport, or an engine-level error with any message
`e`) is caught and converted to the handler's fixed reply — `Failed to
connect transport` resp. `Failed to produce` — and a failed `produce`
changes no state and broadcasts nothing; the engine call itself is made at
most once per request (its single outcome parameter is consumed once). -/
theorem C8_fixed_replies_on_engine_error (st : ServerState) (sock : SocketCtx)
    (roomId transportId kind e : String) :
    connectTransportHandler st sock roomId transportId (Except.error e)
      = Except.error "Failed to connect transport" ∧
    (produceHandler st sock roomId transportId kind (Except.error e)).1
      = Except.error "Failed to produce" ∧
    (produceHandler st sock roomId transportId kind (Except.error e)).2.1 = st ∧
    (produceHandler st sock roomId transportId kind (Except.error e)).2.2 = [] := by
  cases h1 : mapGet st.registry.rooms roomId with
  | none =>
    refine ⟨?_, ?_, ?_, ?_⟩ <;>
      simp [connectTransportHandler, produceHandler, connectTransport, produce, getPeer, h1]
  | some room =>
    cases h2 : mapGet room.peers sock.id with
    | none =>
      refine ⟨?_, ?_, ?_, ?_⟩ <;>
        simp [connectTransportHandler, produceHandler, connectTransport, produce, getPeer, h1, h2]
    | some peer =>
      cases h3 : mapGet peer.transports transportId with
      | none =>
        refine ⟨?_, ?_, ?_, ?_⟩ <;>
          simp [connectTransportHandler, produceHandler, connectTransport, produce, getPeer, h1, h2, h3]
      | some tr =>
        refine ⟨?_, ?_, ?_, ?_⟩ <;>
          simp [connectTransportHandler, produceHandler, connectTransport, produce, getPeer, h1, h2, h3]

/-- C9 (counterexample): on a string whose trailing segment has no parseable
digit prefix, `getMeetingAge` evaluates to `NaN` (modelled `none`) — not to
the numeric sentinel 999, which is returned only from the unreachable
`catch` branch. -/
theorem C9_age_is_nan_not_sentinel : getMeetingAge "abc" 0 = none := by
  decide

/-- C9 (amended): whenever `parseInt` fails on the trailing segment,
`getMeetingAge` returns `NaN` (a non-numeric value propagated through the
subtraction and division), never the 999 sentinel, because `split` and
`parseInt` cannot throw on string inputs. -/
theorem C9_age_nan_on_parse_failure (s : String) (now : Int)
    (h : jsParseInt (lastSegment s) = none) : getMeetingAge s now = none := by
  unfold getMeetingAge
  rw [h]

/-- C9 witness: a two-segment id with a non-numeric trailing segment. -/
theorem C9_age_nan_on_parse_failure_witness : getMeetingAge "zz-qq" 5 = none :=
  C9_age_nan_on_parse_failure "zz-qq" 5 (by decide)

/-- C2: a `joinRoom` request with all three fields present whose room id has
a trailing timestamp segment more than 24 hours in the past is answered with
exactly `Meeting link has expired (24h limit)`, and the server state, the
socket data and the broadcast list are all unchanged — no peer entry and no
room is created. -/
theorem C2_joinRoom_expired (st : ServerState) (sock : SocketCtx)
    (data : JoinData) (now t : Int)
    (hr : jsTruthy data.roomId = true) (hu : jsTruthy data.userId = true)
    (hn : jsTruthy data.username = true)
    (hparse : jsParseInt (lastSegment (data.roomId.getD "")) = some t)
    (hold : now - t > 24 * 60 * 60 * 1000) :
    joinRoomHandler st sock data now
      = (Except.error "Meeting link has expired (24h limit)", st, sock, []) := by
  have hexp : isMeetingExpired (data.roomId.getD "") now = true := by
    unfold isMeetingExpired
    rw [hparse]
    simpa using hold
  unfold joinRoomHandler
  rw [if_neg (by simp [hr, hu, hn])]
  simp [hexp]

/-- C2 witness: joining with a room id stamped 1000 at a clock just past the
24-hour limit is rejected and mutates nothing. -/
theorem C2_joinRoom_expired_witness :
    joinRoomHandler ⟨regEmpty, []⟩ ⟨"C", none, none, none⟩
        ⟨some "abcd-1000", some "u", some "n"⟩ (1000 + 24 * 60 * 60 * 1000 + 1)
      = (Except.error "Meeting link has expired (24h limit)",
         ⟨regEmpty, []⟩, ⟨"C", none, none, none⟩, []) :=
  C2_joinRoom_expired _ _ _ _ 1000 (by decide) (by decide) (by decide)
    (by decide) (by decide)

/-- C3: for any 8 entropy bytes and any generation instant `now`,
`generateMeetingId` yields a string of shape `^[0-9a-f]\x7b16\x7d-\d+$`, it
is not expired at the generation instant, and it is expired at a clock
reading `clock` exactly when `clock` exceeds the embedded timestamp by
strictly more than 24 hours. -/
theorem C3_generateMeetingId (entropy : List Nat) (now : Nat)
    (hlen : entropy.length = 8) :
    matchesIdForm (generateMeetingId entropy now) = true ∧
    isMeetingExpired (generateMeetingId entropy now) (now : Int) = false ∧
    ∀ clock : Int, isMeetingExpired (generateMeetingId entropy now) clock = true
      ↔ clock > (now : Int) + 24 * 60 * 60 * 1000 := by
  have hhexlen : (bytesToHex entropy).length = 16 := by
    rw [bytesToHex_length, hlen]
  have hlast : lastSegment (generateMeetingId entropy now) = natDigits now := by
    apply lastSegment_mk
    · intro c hc
      exact ne_dash_of_lowerHex (bytesToHex_lowerHex entropy c hc)
    · intro c hc
      exact (decDigit_facts (natDigits_mem_decDigits now c hc)).2.2.1
  have hexp : ∀ clock : Int,
      isMeetingExpired (generateMeetingId entropy now) clock
        = decide (clock - (now : Int) > 24 * 60 * 60 * 1000) := by
    intro clock
    unfold isMeetingExpired
    rw [hlast, jsParseInt_natDigits]
  refine ⟨?_, ?_, ?_⟩
  · exact matchesIdForm_mk (bytesToHex entropy) (natDigits now) hhexlen
      (bytesToHex_lowerHex entropy) (natDigits_ne_nil now)
      (fun c hc => (decDigit_facts (natDigits_mem_decDigits now c hc)).1)
  · rw [hexp]
    simp
  · intro clock
    rw [hexp]
    constructor
    · intro h
      have := of_decide_eq_true h
      omega
    · intro h
      apply decide_eq_true
      omega

/-- C3 witness: a concrete 8-byte entropy list and timestamp; the id has the
right shape, is fresh at its own timestamp, and the expiry equivalence holds
at the first expired instant. -/
theorem C3_generateMeetingId_witness :
    matchesIdForm (generateMeetingId sampleEntropy 1700000000000) = true ∧
    isMeetingExpired (generateMeetingId sampleEntropy 1700000000000)
      (1700000000000 : Int) = false ∧
    (isMeetingExpired (generateMeetingId sampleEntropy 1700000000000)
        ((1700000000000 : Int) + 24 * 60 * 60 * 1000 + 1) = true
      ↔ (1700000000000 : Int) + 24 * 60 * 60 * 1000 + 1
          > (1700000000000 : Int) + 24 * 60 * 60 * 1000) := by
  obtain ⟨h1, h2, h3⟩ := C3_generateMeetingId sampleEntropy 1700000000000 (by decide)
  exact ⟨h1, h2, h3 _⟩

/-- C4 (counterexample): adding a peer whose `peerId` is already present in
the room does NOT fail with a duplicate-peer error — the source has no such
check; `Map.set` silently replaces the stored peer with a fresh empty one. -/
theorem C4_duplicate_peer_not_rejected :
    mapHas sampleRoomPQ.peers "p" = true ∧
    addPeer regPQ "r" "p" "u9" "Zoe"
      = Except.ok (⟨"p", "u9", "Zoe", [], [], []⟩, regPQafter) := by
  exact ⟨rfl, rfl⟩

/-- C4 (amended): `addPeer` fails with the room-not-found error when the room
is absent (the thrown error carries no mutated registry, so the peer map is
unchanged); when a peer with the same `peerId` is already present it does not
fail: it succeeds, overwriting that entry with a fresh peer with empty
resource maps and leaving the number of peers unchanged. -/
theorem C4_addPeer_amended (reg : Registry) (roomId p u n : String) :
    (mapGet reg.rooms roomId = none →
       addPeer reg roomId p u n
         = Except.error ("Room " ++ roomId ++ " not found")) ∧
    (∀ room, mapGet reg.rooms roomId = some room → mapHas room.peers p = true →
       ∃ reg1, addPeer reg roomId p u n
           = Except.ok (⟨p, u, n, [], [], []⟩, reg1) ∧
         mapGet reg1.rooms roomId
           = some { room with peers := mapSet room.peers p ⟨p, u, n, [], [], []⟩ } ∧
         (mapSet room.peers p ⟨p, u, n, [], [], []⟩).length = room.peers.length) := by
  constructor
  · intro h
    unfold addPeer
    rw [h]
  · intro room hroom hhas
    unfold addPeer
    rw [hroom]
    exact ⟨_, rfl, by simp [mapGet_mapSet_self], length_mapSet_has hhas _⟩

/-- C4 witness: the room-not-found arm on an empty registry, and the
silent-overwrite arm on a room already holding peer `p`. -/
theorem C4_addPeer_amended_witness :
    addPeer regEmpty "r" "p" "u" "n"
      = Except.error ("Room " ++ "r" ++ " not found") ∧
    ∃ reg1, addPeer regPQ "r" "p" "u9" "Zoe"
        = Except.ok (⟨"p", "u9", "Zoe", [], [], []⟩, reg1) ∧
      mapGet reg1.rooms "r"
        = some { sampleRoomPQ with
                   peers := mapSet sampleRoomPQ.peers "p" ⟨"p", "u9", "Zoe", [], [], []⟩ } ∧
      (mapSet sampleRoomPQ.peers "p" ⟨"p", "u9", "Zoe", [], [], []⟩).length
        = sampleRoomPQ.peers.length :=
  ⟨(C4_addPeer_amended regEmpty "r" "p" "u" "n").1 rfl,
   (C4_addPeer_amended regPQ "r" "p" "u9" "Zoe").2 sampleRoomPQ rfl (by decide)⟩

/-- C5: every entry of `getOtherPeersProducers roomId ex` belongs to a peer
other than `ex` and all five of its fields are drawn from a producer held by
some peer of that room; for a nonexistent room the result is empty. -/
theorem C5_getOtherPeersProducers (reg : Registry) (roomId ex : String) :
    (∀ entry ∈ getOtherPeersProducers reg roomId ex,
       entry.peerId ≠ ex ∧
       ∃ room, mapGet reg.rooms roomId = some room ∧
         ∃ peer, (entry.peerId, peer) ∈ room.peers ∧
           entry.userId = peer.userId ∧ entry.username = peer.username ∧
           ∃ key prod, (key, prod) ∈ peer.producers ∧
             entry.producerId = prod.id ∧ entry.kind = prod.kind) ∧
    (mapGet reg.rooms roomId = none → getOtherPeersProducers reg roomId ex = []) := by
  constructor
  · intro entry hmem
    unfold getOtherPeersProducers at hmem
    cases hroom : mapGet reg.rooms roomId with
    | none =>
      rw [hroom] at hmem
      simp at hmem
    | some room =>
      rw [hroom] at hmem
      simp only [List.mem_flatMap, List.mem_filter, List.mem_map] at hmem
      obtain ⟨⟨pid, peer⟩, ⟨hpmem, hpne⟩, ⟨key, prod⟩, hprodmem, rfl⟩ := hmem
      simp only [decide_eq_true_eq] at hpne
      exact ⟨hpne, room, rfl, peer, hpmem, rfl, rfl, key, prod, hprodmem, rfl, rfl⟩
  · intro h
    unfold getOtherPeersProducers
    rw [h]

/-- C5 witness: in the two-peer room where `p` owns one video producer, the
snapshot excluding `q` has exactly the producer entry of `p`; the empty
registry yields the empty snapshot. -/
theorem C5_getOtherPeersProducers_witness :
    ((⟨"pv", "p", "u1", "Alice", "video"⟩ : ProducerInfo).peerId ≠ "q" ∧
      ∃ room, mapGet regPQ.rooms "r" = some room ∧
        ∃ peer, ((⟨"pv", "p", "u1", "Alice", "video"⟩ : ProducerInfo).peerId, peer)
              ∈ room.peers ∧
          (⟨"pv", "p", "u1", "Alice", "video"⟩ : ProducerInfo).userId = peer.userId ∧
          (⟨"pv", "p", "u1", "Alice", "video"⟩ : ProducerInfo).username = peer.username ∧
          ∃ key prod, (key, prod) ∈ peer.producers ∧
            (⟨"pv", "p", "u1", "Alice", "video"⟩ : ProducerInfo).producerId = prod.id ∧
            (⟨"pv", "p", "u1", "Alice", "video"⟩ : ProducerInfo).kind = prod.kind) ∧
    getOtherPeersProducers regEmpty "r" "q" = [] :=
  ⟨(C5_getOtherPeersProducers regPQ "r" "q").1 ⟨"pv", "p", "u1", "Alice", "video"⟩
      (by decide),
   (C5_getOtherPeersProducers regEmpty "r" "q").2 rfl⟩

/-- C6: `createRoom` is idempotent — with an existing room it returns that
room and the registry completely unchanged (in particular no router is
created, the creation counter is untouched); with an absent room it creates
exactly one router, assigns it to the new room and appends the room to the
registry. -/
theorem C6_createRoom (reg : Registry) (roomId : String) (now : Int) :
    (∀ room, mapGet reg.rooms roomId = some room →
       createRoom reg roomId now = (room, reg)) ∧
    (mapGet reg.rooms roomId = none →
       (createRoom reg roomId now).2.nextRouter = reg.nextRouter + 1 ∧
       (createRoom reg roomId now).1.router = reg.nextRouter ∧
       (createRoom reg roomId now).2.rooms
         = reg.rooms ++ [(roomId, (createRoom reg roomId now).1)]) := by
  constructor
  · intro room h
    unfold createRoom
    rw [h]
  · intro h
    unfold createRoom
    rw [h]
    exact ⟨rfl, rfl, mapSet_not_has (by simp [mapHas, h]) _⟩

/-- C6 witness: creating `r` over a registry that already holds it returns
the stored room and the same registry; creating it over the empty registry
bumps the router counter and appends the room. -/
theorem C6_createRoom_witness :
    createRoom regAB "r" 5 = (sampleRoomAB, regAB) ∧
    ((createRoom regEmpty "r" 5).2.nextRouter = regEmpty.nextRouter + 1 ∧
     (createRoom regEmpty "r" 5).1.router = regEmpty.nextRouter ∧
     (createRoom regEmpty "r" 5).2.rooms
       = regEmpty.rooms ++ [("r", (createRoom regEmpty "r" 5).1)]) :=
  ⟨(C6_createRoom regAB "r" 5).1 sampleRoomAB rfl,
   (C6_createRoom regEmpty "r" 5).2 rfl⟩

/-- C10 (counterexample): re-adding an existing peer id (`p`, who owns a
producer) changes `getOtherPeersProducers` for the excluded peer `q` — the
producer entry vanishes — and does not grow the roster, so "adding a peer
never changes listOtherProducers and only appends one roster entry" is false
on the code. -/
theorem C10_overwrite_changes_snapshot :
    getOtherPeersProducers regPQ "r" "q"
      = [⟨"pv", "p", "u1", "Alice", "video"⟩] ∧
    getOtherPeersProducers regPQafter "r" "q" = [] ∧
    (getRoomPeers regPQafter "r").length = (getRoomPeers regPQ "r").length := by
  decide

/-- C10 (amended): when the added `peerId` is not already present in the
room, the new peer starts with empty transport, producer and consumer maps
(visible in the returned peer value), `getOtherPeersProducers` is unchanged
for every excluded peer id, and `getRoomPeers` gains exactly the one new
roster entry; when the id is already present the old entry is replaced, which
can remove producers from the snapshot. -/
theorem C10_addPeer_fresh (reg : Registry) (roomId p u n : String) (room : Room)
    (hroom : mapGet reg.rooms roomId = some room)
    (hnew : mapHas room.peers p = false) :
    ∃ reg1, addPeer reg roomId p u n = Except.ok (⟨p, u, n, [], [], []⟩, reg1) ∧
      (∀ ex, getOtherPeersProducers reg1 roomId ex
         = getOtherPeersProducers reg roomId ex) ∧
      getRoomPeers reg1 roomId = getRoomPeers reg roomId ++ [⟨p, u, n⟩] := by
  unfold addPeer
  rw [hroom]
  refine ⟨_, rfl, ?_, ?_⟩
  · intro ex
    simp only [getOtherPeersProducers, mapGet_mapSet_self, hroom,
      mapSet_not_has hnew, List.filter_append, List.flatMap_append]
    by_cases hex : p = ex <;> simp [hex]
  · simp only [getRoomPeers, mapGet_mapSet_self, hroom,
      mapSet_not_has hnew, List.map_append]
    rfl

/-- C10 witness: adding a genuinely new peer `C` to the A/B room leaves the
producer snapshot of every excluded peer intact and appends exactly one
roster entry. -/
theorem C10_addPeer_fresh_witness :
    ∃ reg1, addPeer regAB "r" "C" "u3" "Carol"
        = Except.ok (⟨"C", "u3", "Carol", [], [], []⟩, reg1) ∧
      (∀ ex, getOtherPeersProducers reg1 "r" ex
         = getOtherPeersProducers regAB "r" ex) ∧
      getRoomPeers reg1 "r" = getRoomPeers regAB "r" ++ [⟨"C", "u3", "Carol"⟩] :=
  C10_addPeer_fresh regAB "r" "C" "u3" "Carol" sampleRoomAB rfl (by decide)

end Cindi
